import Mathlib

/-!
Verification of the real-time chat relay backend (Socket.IO chat app).

Shallow embedding of the backend's core components, translated from the
TypeScript source:

* `services/ollama.ts` — the admission-controlled request dispatcher
  (`MAX_CONCURRENT_REQUESTS`, `requestQueue`, `processQueue`,
  `chatWithOllama`, `executeOllamaRequest`);
* `services/message.ts` — the persistence operations (`createMessage`,
  `getConversationMessages`, `getOrCreateDirectConversation`);
* `services/redis.ts` — the shared presence set (`setUserOnline`,
  `setUserOffline`) and the pub/sub publishes;
* `socket/handler.ts` — the per-connection event handlers
  (`authenticate`, `join_conversation`, `send_message`, `start_direct`,
  `disconnect`).

The JavaScript runtime is a single-threaded event loop: the code between
two `await` suspension points runs atomically.  The embedding models each
handler (and each dispatcher event) as a state-transition function on an
explicit state record; the database and Redis are explicit fields of that
state, and fallible database calls (`prisma.*.update` / `create` on a
missing row) return `Option`.
-/

namespace ChatApp

/-! ## Admission-controlled request dispatcher (`services/ollama.ts`)

The source keeps module-level state

```
const MAX_CONCURRENT_REQUESTS = 5;
let activeRequests = 0;
const requestQueue: Array<{resolve, reject, params}> = [];
```

`chatWithOllama` pushes a pending request onto `requestQueue` and calls
`processQueue()`.  `processQueue` runs `while (requestQueue.length > 0 &&
activeRequests < MAX_CONCURRENT_REQUESTS)`: it shifts the front request,
increments `activeRequests` (no `await` separates the check, the shift and
the increment, so this is atomic on the event loop), executes it, and in
the `finally` decrements `activeRequests` and calls `processQueue()` again.

The embedding tracks the queue of pending request ids, the number of
in-flight executions, and the ids in the order their execution started.
The aggregate effect of the live `processQueue` frames between two
suspension points is to keep starting the front queued request while a
slot is free — `drainQueue` below.  External events are `submit`
(a `chatWithOllama` call) and `complete` (an in-flight execution settling,
successfully or not, which frees its slot in the `finally`). -/

def MAX_CONCURRENT_REQUESTS : Nat := 5

structure DispatcherState where
  requestQueue : List Nat
  activeRequests : Nat
  started : List Nat
  deriving Repr, DecidableEq

/-- Kernel of `processQueue`: while the queue is nonempty and a slot is
free, shift the front request and start it (`activeRequests++`). -/
def drainQueue : List Nat → Nat → List Nat → DispatcherState
  | [], active, started => ⟨[], active, started⟩
  | r :: rest, active, started =>
    if active < MAX_CONCURRENT_REQUESTS then
      drainQueue rest (active + 1) (started ++ [r])
    else
      ⟨r :: rest, active, started⟩

def processQueue (s : DispatcherState) : DispatcherState :=
  drainQueue s.requestQueue s.activeRequests s.started

inductive DispatchEvent where
  | submit (id : Nat)
  | complete
  deriving Repr, DecidableEq

/-- One external dispatcher event.  `submit` is `chatWithOllama`: push onto
`requestQueue`, then `processQueue()`.  `complete` is the settling of one
in-flight execution: `activeRequests--` in the `finally`, then
`processQueue()`.  (`complete` with nothing in flight cannot occur; the
guard makes the function total.) -/
def dispatchStep (s : DispatcherState) : DispatchEvent → DispatcherState
  | .submit i => processQueue { s with requestQueue := s.requestQueue ++ [i] }
  | .complete =>
    if s.activeRequests = 0 then s
    else processQueue { s with activeRequests := s.activeRequests - 1 }

def initDispatcher : DispatcherState := ⟨[], 0, []⟩

def runDispatcher (es : List DispatchEvent) : DispatcherState :=
  es.foldl dispatchStep initDispatcher

/-- The ids of the `submit` events of a trace, in submission order. -/
def submittedIds : List DispatchEvent → List Nat
  | [] => []
  | .submit i :: es => i :: submittedIds es
  | .complete :: es => submittedIds es

/-! ## Ollama request execution (`executeOllamaRequest` in `services/ollama.ts`)

`executeOllamaRequest` saves the inbound user message, performs the
backend `fetch` inside a `try` block (a non-OK HTTP response is turned
into a thrown `Error`, a network failure is a thrown fetch error), and in
the `catch` converts any thrown backend error into a user-facing reply
string — distinguishing `ECONNREFUSED` from other errors — instead of
re-throwing.  The backend interaction itself is external I/O; it enters
the embedding as an `OllamaOutcome` parameter. -/

structure BotChatRec where
  userId : String
  role : String
  content : String
  model : String
  deriving Repr, DecidableEq

structure BotState where
  botChats : List BotChatRec
  deriving Repr, DecidableEq

def saveBotMessage (st : BotState) (userId role content model : String) : BotState :=
  { st with botChats := st.botChats ++ [⟨userId, role, content, model⟩] }

/-- JS `String.prototype.includes`. -/
def stringIncludes (s pat : String) : Bool :=
  decide (pat.toList <:+: s.toList)

inductive OllamaOutcome where
  | success (content : String)
  | httpError (status : Nat) (statusText : String)
  | fetchFailure (msg : String)
  deriving Repr, DecidableEq

/-- The fetch-and-check step inside the `try` block: `.error` is a thrown
exception (`!response.ok` raises `Ollama returned <status>: <statusText>`;
a network failure propagates the fetch error message). -/
def ollamaFetch : OllamaOutcome → Except String String
  | .success content => .ok content
  | .httpError status statusText =>
      .error ("Ollama returned " ++ toString status ++ ": " ++ statusText)
  | .fetchFailure msg => .error msg

def ollamaUnreachableReply : String :=
  "I'm having trouble connecting to my brain (Ollama). Make sure Ollama is running!"

/-- The `catch` block of `executeOllamaRequest`. -/
def ollamaErrorReply (errorMsg : String) : String :=
  if stringIncludes errorMsg "ECONNREFUSED" then ollamaUnreachableReply
  else "Sorry, I encountered an error: " ++ errorMsg

/-- `executeOllamaRequest`, with the backend call abstracted by `outcome`.
The returned `String` is the value the dispatcher passes to
`request.resolve`; backend errors are caught and converted, never
re-thrown, so the result type is total rather than `Except`. -/
def executeOllamaRequest (st : BotState) (userId userMessage model : String)
    (outcome : OllamaOutcome) : String × BotState :=
  let st1 := saveBotMessage st userId "user" userMessage model
  match ollamaFetch outcome with
  | .ok assistantMessage =>
      (assistantMessage, saveBotMessage st1 userId "assistant" assistantMessage model)
  | .error errorMsg => (ollamaErrorReply errorMsg, st1)

/-! ## Chat server state (`services/message.ts`, `services/redis.ts`,
`socket/handler.ts`)

`ServerState` gathers the state shared by all connections: the database
tables touched by the handlers (`users`, `conversations`, `messages`),
the Redis presence set and last-seen cache, and the ordered log of pub/sub
publishes.  `now` is the current clock value; it ticks on message
creation, so stored messages carry strictly increasing `createdAt` values
and the stored order of `messages` coincides with ascending `createdAt`
order (sequential `prisma.message.create` calls get non-decreasing
timestamps). -/

structure UserRec where
  id : String
  username : String
  avatar : Option String
  isOnline : Bool
  lastSeen : Nat
  deriving Repr, DecidableEq

structure Conversation where
  id : String
  isGroup : Bool
  participants : List String
  deriving Repr, DecidableEq

structure MessageRec where
  id : Nat
  content : String
  senderId : String
  conversationId : String
  createdAt : Nat
  deriving Repr, DecidableEq

structure SenderInfo where
  id : String
  username : String
  avatar : Option String
  deriving Repr, DecidableEq

/-- The `MessageWithSender` shape of `services/message.ts`: a message row
with the denormalized sender fields selected by the `include`. -/
structure MessageWithSender where
  id : Nat
  content : String
  senderId : String
  conversationId : String
  createdAt : Nat
  sender : SenderInfo
  deriving Repr, DecidableEq

/-- Envelopes published to the Redis backbone (`publishMessage` calls). -/
inductive PubEvent where
  | newMessage (conversationId : String) (message : MessageWithSender)
  | userOnline (userId : String)
  | userOffline (userId : String)
  deriving Repr, DecidableEq

/-- Events emitted back to the handling connection itself. -/
inductive OutEvent where
  | onlineUsers (userIds : List String)
  | messageHistory (conversationId : String) (messages : List MessageWithSender)
  | conversationStarted (conversationId : String)
  deriving Repr, DecidableEq

structure ServerState where
  users : List UserRec
  conversations : List Conversation
  messages : List MessageRec
  onlineSet : List String
  lastSeenCache : List (String × Nat)
  published : List PubEvent
  nextMessageId : Nat
  nextConvId : Nat
  now : Nat
  deriving Repr, DecidableEq

/-- `publishMessage(channel, data)` of `services/redis.ts`: append the
envelope to the backbone log. -/
def publishMessage (srv : ServerState) (e : PubEvent) : ServerState :=
  { srv with published := srv.published ++ [e] }

/-- `setUserOnline`: `SADD online_users` plus last-seen cache write. -/
def setUserOnline (srv : ServerState) (userId : String) : ServerState :=
  { srv with
    onlineSet :=
      if srv.onlineSet.contains userId then srv.onlineSet
      else srv.onlineSet ++ [userId],
    lastSeenCache :=
      (userId, srv.now) :: srv.lastSeenCache.filter (fun p => p.1 != userId) }

/-- `setUserOffline`: `SREM online_users` plus last-seen cache write. -/
def setUserOffline (srv : ServerState) (userId : String) : ServerState :=
  { srv with
    onlineSet := srv.onlineSet.filter (fun u => u != userId),
    lastSeenCache :=
      (userId, srv.now) :: srv.lastSeenCache.filter (fun p => p.1 != userId) }

def getOnlineUsers (srv : ServerState) : List String :=
  srv.onlineSet

def findUser (srv : ServerState) (userId : String) : Option UserRec :=
  srv.users.find? (fun u => u.id == userId)

/-- `prisma.user.update({where: {id}, data: {isOnline, lastSeen: now}})`;
`none` models the exception thrown when no row matches `id`. -/
def updateUserStatus (srv : ServerState) (userId : String) (isOnline : Bool) :
    Option ServerState :=
  if srv.users.any (fun u => u.id == userId) then
    some { srv with
      users := srv.users.map (fun u =>
        if u.id == userId then { u with isOnline := isOnline, lastSeen := srv.now }
        else u) }
  else none

/-- `createMessage` of `services/message.ts`: `prisma.message.create` with
the sender `include`; `none` models the foreign-key exception when the
sender or the conversation does not exist. -/
def createMessage (srv : ServerState) (content senderId conversationId : String) :
    Option (MessageWithSender × ServerState) :=
  match findUser srv senderId with
  | none => none
  | some sender =>
    if srv.conversations.any (fun c => c.id == conversationId) then
      let m : MessageRec :=
        ⟨srv.nextMessageId, content, senderId, conversationId, srv.now⟩
      some (⟨m.id, m.content, m.senderId, m.conversationId, m.createdAt,
          ⟨sender.id, sender.username, sender.avatar⟩⟩,
        { srv with
          messages := srv.messages ++ [m],
          nextMessageId := srv.nextMessageId + 1,
          now := srv.now + 1 })
    else none

/-- The sender `include` of a read query: join the current user row. -/
def joinSender (srv : ServerState) (m : MessageRec) : MessageWithSender :=
  match findUser srv m.senderId with
  | some u =>
      ⟨m.id, m.content, m.senderId, m.conversationId, m.createdAt,
        ⟨u.id, u.username, u.avatar⟩⟩
  | none =>
      ⟨m.id, m.content, m.senderId, m.conversationId, m.createdAt,
        ⟨m.senderId, "", none⟩⟩

/-- `getConversationMessages(conversationId, limit = 50, cursor?)`:
`findMany` ordered by `createdAt` descending (the reverse of the stored
ascending order), optional cursor positioning with `skip: 1`, `take
limit`, and a final `.reverse()` back to oldest-first. -/
def getConversationMessages (srv : ServerState) (conversationId : String)
    (limit : Nat) (cursor : Option Nat) : List MessageWithSender :=
  let newestFirst : List MessageRec :=
    (srv.messages.filter (fun m => m.conversationId == conversationId)).reverse
  let page : List MessageRec :=
    match cursor with
    | none => newestFirst.take limit
    | some c => ((newestFirst.dropWhile (fun m => m.id != c)).drop 1).take limit
  page.reverse.map (joinSender srv)

/-- The `findFirst` filter of `getOrCreateDirectConversation`:
`isGroup: false` and both users among the participants. -/
def matchesDirect (c : Conversation) (userId1 userId2 : String) : Bool :=
  !c.isGroup && c.participants.any (fun p => p == userId1)
    && c.participants.any (fun p => p == userId2)

/-- `getOrCreateDirectConversation(userId1, userId2)`: look up an existing
non-group conversation containing both users; otherwise create one with
exactly those two participants (fresh id). -/
def getOrCreateDirectConversation (srv : ServerState) (userId1 userId2 : String) :
    String × ServerState :=
  match srv.conversations.find? (fun c => matchesDirect c userId1 userId2) with
  | some existing => (existing.id, srv)
  | none =>
    let newId := "conv" ++ toString srv.nextConvId
    (newId,
      { srv with
        conversations := srv.conversations ++ [⟨newId, false, [userId1, userId2]⟩],
        nextConvId := srv.nextConvId + 1 })

/-! ## Per-connection socket handlers (`socket/handler.ts`) -/

structure SocketState where
  sid : Nat
  userId : Option String
  username : Option String
  rooms : List String
  deriving Repr, DecidableEq

/-- JS truthiness of `socket.userId` as used by `if (!socket.userId)`:
`undefined` and the empty string are both falsy. -/
def falsyId : Option String → Bool
  | none => true
  | some s => s == ""

/-- A handler finishes with the new socket state, the new shared state,
and the events emitted back to this connection. -/
abbrev HandlerResult := SocketState × ServerState × List OutEvent

/-- The `authenticate` handler: bind the identity onto the socket
(unconditionally, before any persistence), persist
`isOnline=true, lastSeen=now`, add to the shared online set, publish
`user_online`, and emit the online-users snapshot. -/
def handleAuthenticate (socket : SocketState) (srv : ServerState)
    (userId username : String) : HandlerResult :=
  let socket1 := { socket with userId := some userId, username := some username }
  match updateUserStatus srv userId true with
  | none => (socket1, srv, [])
  | some srv1 =>
    let srv2 := setUserOnline srv1 userId
    let srv3 := publishMessage srv2 (.userOnline userId)
    (socket1, srv3, [.onlineUsers (getOnlineUsers srv3)])

def joinRoom (rooms : List String) (roomId : String) : List String :=
  if rooms.contains roomId then rooms else rooms ++ [roomId]

/-- The `join_conversation` handler: join the room and emit the bounded
message-history page — no identity or membership check. -/
def handleJoinConversation (socket : SocketState) (srv : ServerState)
    (conversationId : String) : HandlerResult :=
  let socket1 := { socket with rooms := joinRoom socket.rooms conversationId }
  let messages := getConversationMessages srv conversationId 50 none
  (socket1, srv, [.messageHistory conversationId messages])

/-- The `leave_conversation` handler. -/
def handleLeaveConversation (socket : SocketState) (srv : ServerState)
    (conversationId : String) : HandlerResult :=
  ({ socket with rooms := socket.rooms.filter (fun r => r != conversationId) },
    srv, [])

/-- The `send_message` handler: `if (!socket.userId) return;`, then
`createMessage` and a `new_message` publish.  No check on `content`. -/
def handleSendMessage (socket : SocketState) (srv : ServerState)
    (conversationId content : String) : HandlerResult :=
  match socket.userId with
  | none => (socket, srv, [])
  | some uid =>
    if uid == "" then (socket, srv, [])
    else
      match createMessage srv content uid conversationId with
      | none => (socket, srv, [])
      | some (message, srv1) =>
        (socket, publishMessage srv1 (.newMessage conversationId message), [])

/-- The `start_direct` handler: `if (!socket.userId) return;`, then
resolve-or-create the direct conversation and emit
`conversation_started`. -/
def handleStartDirect (socket : SocketState) (srv : ServerState)
    (targetUserId : String) : HandlerResult :=
  match socket.userId with
  | none => (socket, srv, [])
  | some uid =>
    if uid == "" then (socket, srv, [])
    else
      let r := getOrCreateDirectConversation srv uid targetUserId
      (socket, r.2, [.conversationStarted r.1])

/-- The `disconnect` handler: if an identity is bound, persist
`isOnline=false, lastSeen=now`, remove from the shared online set, and
publish one `user_offline`; otherwise do nothing. -/
def handleDisconnect (socket : SocketState) (srv : ServerState) : HandlerResult :=
  match socket.userId with
  | none => (socket, srv, [])
  | some uid =>
    if uid == "" then (socket, srv, [])
    else
      match updateUserStatus srv uid false with
      | none => (socket, srv, [])
      | some srv1 =>
        let srv2 := setUserOffline srv1 uid
        (socket, publishMessage srv2 (.userOffline uid), [])

/-- The whole instance: the set of live connections plus the shared
state.  Socket.IO removes a closed connection from the registry and runs
its `disconnect` handler. -/
structure SystemState where
  sockets : List SocketState
  server : ServerState
  deriving Repr, DecidableEq

def disconnectSocket (sys : SystemState) (sid : Nat) : SystemState :=
  match sys.sockets.find? (fun s => s.sid == sid) with
  | none => sys
  | some socket =>
    { sockets := sys.sockets.filter (fun t => t.sid != sid),
      server := (handleDisconnect socket sys.server).2.1 }

/-- Sequential `send_message` calls from one connection. -/
def sendAll (socket : SocketState) (srv : ServerState) (conversationId : String) :
    List String → ServerState
  | [] => srv
  | c :: cs =>
    sendAll socket (handleSendMessage socket srv conversationId c).2.1
      conversationId cs

/-! ### Concrete sample states for witnesses and counterexamples -/

def sampleUser1 : UserRec := ⟨"u1", "Alice", none, false, 0⟩

def sampleUser2 : UserRec := ⟨"u2", "Bob", none, false, 0⟩

def sampleConversation : Conversation := ⟨"c1", false, ["u1", "u2"]⟩

def sampleServer : ServerState :=
  ⟨[sampleUser1, sampleUser2], [sampleConversation], [], [], [], [], 0, 0, 0⟩

def sampleSocket : SocketState := ⟨0, some "u1", some "Alice", []⟩

def freshSocket (sid : Nat) : SocketState := ⟨sid, none, none, []⟩

def sampleServerOnline : ServerState :=
  { sampleServer with onlineSet := ["u1", "u2"] }

def socketA : SocketState := ⟨0, some "u1", some "Alice", []⟩

def socketB : SocketState := ⟨1, some "u1", some "Alice", []⟩

def sampleSystem : SystemState := ⟨[socketA, socketB], sampleServerOnline⟩

/-- 51 distinct message contents, one more than the default history page
size of 50. -/
def contents51 : List String := (List.range 51).map (fun i => toString i)

/-- The conversation row created by `getOrCreateDirectConversation` when
no existing direct conversation matches. -/
def newDirectConversation (srv : ServerState) (userId1 userId2 : String) :
    Conversation :=
  ⟨"conv" ++ toString srv.nextConvId, false, [userId1, userId2]⟩

/-- Uniqueness of direct conversations: no two distinct non-group
conversations have the same set of participant identities. -/
def DirectUnique (srv : ServerState) : Prop :=
  List.Pairwise (fun c d =>
    c.isGroup = false → d.isGroup = false →
      ¬(∀ x, x ∈ c.participants ↔ x ∈ d.participants)) srv.conversations

theorem submittedIds_append (es fs : List DispatchEvent) :
    submittedIds (es ++ fs) = submittedIds es ++ submittedIds fs := by
  induction es with
  | nil => rfl
  | cons e es ih => cases e <;> simp [submittedIds, ih]

/-- Reachability invariant of the dispatcher state: never more than
`MAX_CONCURRENT_REQUESTS` in flight, and a nonempty queue means every
slot is taken. -/
def DispatcherInv (s : DispatcherState) : Prop :=
  s.activeRequests ≤ MAX_CONCURRENT_REQUESTS ∧
    (s.requestQueue ≠ [] → s.activeRequests = MAX_CONCURRENT_REQUESTS)

theorem drainQueue_spec (q : List Nat) (a : Nat) (st : List Nat)
    (ha : a ≤ MAX_CONCURRENT_REQUESTS) :
    DispatcherInv (drainQueue q a st) ∧
      (drainQueue q a st).started ++ (drainQueue q a st).requestQueue = st ++ q := by
  induction q generalizing a st with
  | nil =>
    refine ⟨⟨ha, ?_⟩, by simp [drainQueue]⟩
    intro h
    simp [drainQueue] at h
  | cons r rest ih =>
    by_cases hlt : a < MAX_CONCURRENT_REQUESTS
    · have := ih (a + 1) (st ++ [r]) hlt
      simpa [drainQueue, hlt] using this
    · have hae : a = MAX_CONCURRENT_REQUESTS := le_antisymm ha (not_lt.mp hlt)
      constructor
      · constructor
        · simpa [drainQueue, hlt] using ha
        · intro _
          simpa [drainQueue, hlt] using hae
      · simp [drainQueue, hlt]

theorem dispatchStep_inv (s : DispatcherState) (e : DispatchEvent)
    (h : DispatcherInv s) :
    DispatcherInv (dispatchStep s e) ∧
      (dispatchStep s e).started ++ (dispatchStep s e).requestQueue =
        s.started ++ s.requestQueue ++ submittedIds [e] := by
  cases e with
  | submit i =>
    have := drainQueue_spec (s.requestQueue ++ [i]) s.activeRequests s.started h.1
    simpa [dispatchStep, processQueue, submittedIds] using this
  | complete =>
    by_cases h0 : s.activeRequests = 0
    · have hstep : dispatchStep s .complete = s := by simp [dispatchStep, h0]
      rw [hstep]
      exact ⟨h, by simp [submittedIds]⟩
    · have hle : s.activeRequests - 1 ≤ MAX_CONCURRENT_REQUESTS :=
        le_trans (Nat.sub_le _ _) h.1
      have := drainQueue_spec s.requestQueue (s.activeRequests - 1) s.started hle
      simpa [dispatchStep, h0, processQueue, submittedIds] using this

theorem runDispatcher_inv (es : List DispatchEvent) :
    DispatcherInv (runDispatcher es) ∧
      (runDispatcher es).started ++ (runDispatcher es).requestQueue =
        submittedIds es := by
  have main : ∀ (es : List DispatchEvent) (s : DispatcherState), DispatcherInv s →
      DispatcherInv (es.foldl dispatchStep s) ∧
        (es.foldl dispatchStep s).started ++ (es.foldl dispatchStep s).requestQueue
          = s.started ++ s.requestQueue ++ submittedIds es := by
    intro es
    induction es with
    | nil => intro s hs; simpa [submittedIds] using hs
    | cons e es ih =>
      intro s hs
      have h1 := dispatchStep_inv s e hs
      have h2 := ih (dispatchStep s e) h1.1
      refine ⟨h2.1, ?_⟩
      rw [List.foldl_cons] at *
      rw [h2.2, h1.2]
      cases e <;> simp [submittedIds]
  have := main es initDispatcher ⟨by simp [initDispatcher, MAX_CONCURRENT_REQUESTS], by simp [initDispatcher]⟩
  simpa [runDispatcher, initDispatcher] using this

/-- Draining: one `complete` event starts the front queued request when
the queue is nonempty (in a reachable state all slots are then taken). -/
theorem complete_drains (es : List DispatchEvent) :
    (runDispatcher
        (es ++ List.replicate (runDispatcher es).requestQueue.length .complete)).started
      = submittedIds es := by
  suffices h : ∀ (n : Nat) (s : DispatcherState), DispatcherInv s →
      s.requestQueue.length = n →
      ((List.replicate n DispatchEvent.complete).foldl dispatchStep s).started
        = s.started ++ s.requestQueue by
    have hinv := runDispatcher_inv es
    have hmain := h (runDispatcher es).requestQueue.length (runDispatcher es) hinv.1 rfl
    have hrun : runDispatcher
          (es ++ List.replicate (runDispatcher es).requestQueue.length .complete)
        = (List.replicate (runDispatcher es).requestQueue.length
            DispatchEvent.complete).foldl dispatchStep (runDispatcher es) := by
      rw [runDispatcher, List.foldl_append]
      rfl
    rw [hrun, hmain, hinv.2]
  intro n
  induction n with
  | zero =>
    intro s _ hlen
    have : s.requestQueue = [] := List.length_eq_zero.mp hlen
    simp [this]
  | succ m ih =>
    intro s hs hlen
    obtain ⟨r, rest, hq⟩ : ∃ r rest, s.requestQueue = r :: rest := by
      cases hq : s.requestQueue with
      | nil => rw [hq] at hlen; simp at hlen
      | cons r rest => exact ⟨r, rest, rfl⟩
    have hfull : s.activeRequests = MAX_CONCURRENT_REQUESTS := hs.2 (by simp [hq])
    have h0 : s.activeRequests ≠ 0 := by
      rw [hfull]; simp [MAX_CONCURRENT_REQUESTS]
    have hlt : s.activeRequests - 1 < MAX_CONCURRENT_REQUESTS := by
      rw [hfull]; simp [MAX_CONCURRENT_REQUESTS]
    have hnotlt : ¬ (s.activeRequests - 1 + 1 < MAX_CONCURRENT_REQUESTS) := by
      rw [hfull]; simp [MAX_CONCURRENT_REQUESTS]
    have hstep : dispatchStep s .complete =
        ⟨rest, s.activeRequests - 1 + 1, s.started ++ [r]⟩ := by
      simp only [dispatchStep, h0, if_false, processQueue, hq, drainQueue, hlt, if_true]
      cases rest with
      | nil => simp [drainQueue]
      | cons r2 rest2 => simp [drainQueue, hnotlt]
    have hinv2 : DispatcherInv (dispatchStep s .complete) := by
      rw [hstep]
      constructor
      · show s.activeRequests - 1 + 1 ≤ MAX_CONCURRENT_REQUESTS
        omega
      · intro hne
        show s.activeRequests - 1 + 1 = MAX_CONCURRENT_REQUESTS
        rw [hfull]
        simp [MAX_CONCURRENT_REQUESTS]
    have hlen2 : (dispatchStep s .complete).requestQueue.length = m := by
      rw [hstep]
      rw [hq] at hlen
      simpa using hlen
    have := ih (dispatchStep s .complete) hinv2 hlen2
    rw [List.replicate_succ, List.foldl_cons, this, hstep]
    simp [hq]

/-! ## Claim theorems -/

/-- C1: for every sequence of dispatcher events (submissions and
completions of in-flight executions), at most
`MAX_CONCURRENT_REQUESTS = 5` requests are executing at any instant;
the ids whose execution has started, followed by the ids still queued,
are exactly the submitted ids in submission order (so execution starts
are FIFO in submission order); and every submission eventually starts:
as soon as the in-flight executions settle (one `complete` per queued
item), every submitted id has started. -/
theorem dispatcher_bounded_fifo_and_live (es : List DispatchEvent) :
    (runDispatcher es).activeRequests ≤ MAX_CONCURRENT_REQUESTS ∧
      (runDispatcher es).started ++ (runDispatcher es).requestQueue
        = submittedIds es ∧
      (runDispatcher
          (es ++ List.replicate (runDispatcher es).requestQueue.length
            .complete)).started
        = submittedIds es :=
  ⟨(runDispatcher_inv es).1.1, (runDispatcher_inv es).2, complete_drains es⟩

/-- C4 counterexample: `authenticate` assigns `socket.userId` and
`socket.username` unconditionally, so a second `authenticate` with a
different identity rebinds the connection rather than being a no-op:
after authenticating as `u1` and then as `u2`, the bound identity is
`u2`, not the first identity `u1`. -/
theorem authenticate_rebinds_counterexample :
    ((handleAuthenticate
        (handleAuthenticate (freshSocket 0) sampleServer "u1" "Alice").1
        (handleAuthenticate (freshSocket 0) sampleServer "u1" "Alice").2.1
        "u2" "Bob").1.userId = some "u2") ∧
      ((handleAuthenticate
          (handleAuthenticate (freshSocket 0) sampleServer "u1" "Alice").1
          (handleAuthenticate (freshSocket 0) sampleServer "u1" "Alice").2.1
          "u2" "Bob").1.userId ≠ some "u1") := by
  constructor
  · rfl
  · decide

/-- C4 amended: a second `authenticate` with a different identity is not
a silent no-op; `authenticate` unconditionally overwrites the binding, so
after any `authenticate(userId, username)` the connection is bound to
exactly that identity — callers can rebind a connection. -/
theorem authenticate_binds_latest (socket : SocketState) (srv : ServerState)
    (userId username : String) :
    (handleAuthenticate socket srv userId username).1.userId = some userId ∧
      (handleAuthenticate socket srv userId username).1.username
        = some username := by
  rcases h : updateUserStatus srv userId true with _ | srv1 <;>
    simp [handleAuthenticate, h]

/-- C7: an identity-requiring event (`send_message`, `start_direct`)
arriving on a connection that has never processed an `authenticate`
event (its `userId` is still unset) is dropped with no persistence call,
no backbone publish, no outbound event, and no state change. -/
theorem unauthenticated_events_rejected (socket : SocketState)
    (srv : ServerState) (conversationId content targetUserId : String)
    (h : socket.userId = none) :
    handleSendMessage socket srv conversationId content = (socket, srv, []) ∧
      handleStartDirect socket srv targetUserId = (socket, srv, []) := by
  constructor <;> simp [handleSendMessage, handleStartDirect, h]

theorem unauthenticated_events_rejected_witness :
    (freshSocket 7).userId = none ∧
      handleSendMessage (freshSocket 7) sampleServer "c1" "hi"
        = (freshSocket 7, sampleServer, []) ∧
      handleStartDirect (freshSocket 7) sampleServer "u2"
        = (freshSocket 7, sampleServer, []) :=
  ⟨rfl, unauthenticated_events_rejected (freshSocket 7) sampleServer
    "c1" "hi" "u2" rfl⟩

/-- C10: `join_conversation` checks neither the identity nor the
membership of the connection: for every connection (any `userId`,
including none) and every conversation id, the handler adds the
connection to that room and emits back the bounded history page (at most
50 messages) of that conversation; the shared state is untouched. -/
theorem join_conversation_unchecked (socket : SocketState)
    (srv : ServerState) (conversationId : String) :
    handleJoinConversation socket srv conversationId
      = ({ socket with rooms := joinRoom socket.rooms conversationId }, srv,
        [.messageHistory conversationId
          (getConversationMessages srv conversationId 50 none)]) ∧
      conversationId ∈ (handleJoinConversation socket srv conversationId).1.rooms ∧
      (getConversationMessages srv conversationId 50 none).length ≤ 50 := by
  refine ⟨rfl, ?_, ?_⟩
  · show conversationId ∈ joinRoom socket.rooms conversationId
    unfold joinRoom
    split
    · next h => simpa using h
    · simp
  · show (getConversationMessages srv conversationId 50 none).length ≤ 50
    simp only [getConversationMessages, List.length_map, List.length_reverse,
      List.length_take]
    exact min_le_left _ _

theorem apology_texts_distinct (msg : String) :
    "Sorry, I encountered an error: " ++ msg ≠ ollamaUnreachableReply := by
  intro h
  have hd : ("Sorry, I encountered an error: " ++ msg).data
      = ollamaUnreachableReply.data := congrArg String.data h
  rw [String.data_append] at hd
  have h1 : ("Sorry, I encountered an error: ").data
      = 'S' :: ("orry, I encountered an error: ").data := rfl
  have h2 : ollamaUnreachableReply.data
      = 'I' :: ("'m having trouble connecting to my brain (Ollama). Make sure Ollama is running!").data := rfl
  rw [h1, h2, List.cons_append] at hd
  have hc : 'S' = 'I' := List.head_eq_of_cons_eq hd
  exact absurd hc (by decide)

/-- C8: the dispatcher never raises for backend errors: whenever the
backend interaction inside the `try` block throws (non-OK HTTP status or
fetch failure such as a refused connection), `executeOllamaRequest`
still returns an apology reply string — the value `processQueue` hands
to `request.resolve`, so `chatWithOllama` resolves rather than rejects —
and the `ECONNREFUSED` case yields the fixed backend-unreachable apology
while every other backend error yields the generic apology text, which
is a different string. -/
theorem backend_errors_resolved_with_apology (st : BotState)
    (userId userMessage model errorMsg : String) (outcome : OllamaOutcome)
    (h : ollamaFetch outcome = .error errorMsg) :
    (executeOllamaRequest st userId userMessage model outcome).1
        = ollamaErrorReply errorMsg ∧
      (stringIncludes errorMsg "ECONNREFUSED" = true →
        ollamaErrorReply errorMsg = ollamaUnreachableReply) ∧
      (stringIncludes errorMsg "ECONNREFUSED" = false →
        ollamaErrorReply errorMsg
            = "Sorry, I encountered an error: " ++ errorMsg ∧
          ollamaErrorReply errorMsg ≠ ollamaUnreachableReply) := by
  refine ⟨by simp [executeOllamaRequest, h], fun hc => by simp [ollamaErrorReply, hc],
    fun hc => ?_⟩
  have hr : ollamaErrorReply errorMsg
      = "Sorry, I encountered an error: " ++ errorMsg := by
    simp [ollamaErrorReply, hc]
  exact ⟨hr, hr ▸ apology_texts_distinct errorMsg⟩

theorem backend_errors_resolved_with_apology_witness :
    ollamaFetch (.fetchFailure "connect ECONNREFUSED 127.0.0.1:11434")
        = .error "connect ECONNREFUSED 127.0.0.1:11434" ∧
      ((executeOllamaRequest ⟨[]⟩ "u1" "hello" "gemma3:1b"
            (.fetchFailure "connect ECONNREFUSED 127.0.0.1:11434")).1
          = ollamaErrorReply "connect ECONNREFUSED 127.0.0.1:11434" ∧
        (stringIncludes "connect ECONNREFUSED 127.0.0.1:11434" "ECONNREFUSED" = true →
          ollamaErrorReply "connect ECONNREFUSED 127.0.0.1:11434"
            = ollamaUnreachableReply) ∧
        (stringIncludes "connect ECONNREFUSED 127.0.0.1:11434" "ECONNREFUSED" = false →
          ollamaErrorReply "connect ECONNREFUSED 127.0.0.1:11434"
              = "Sorry, I encountered an error: "
                ++ "connect ECONNREFUSED 127.0.0.1:11434" ∧
            ollamaErrorReply "connect ECONNREFUSED 127.0.0.1:11434"
              ≠ ollamaUnreachableReply)) :=
  ⟨rfl, backend_errors_resolved_with_apology ⟨[]⟩ "u1" "hello" "gemma3:1b"
    "connect ECONNREFUSED 127.0.0.1:11434" _ rfl⟩

theorem handleDisconnect_spec (socket : SocketState) (srv : ServerState)
    (uid : String) (hbind : socket.userId = some uid) (hne : uid ≠ "")
    (hex : srv.users.any (fun u => u.id == uid) = true) :
    uid ∉ (handleDisconnect socket srv).2.1.onlineSet ∧
      (∃ u ∈ (handleDisconnect socket srv).2.1.users,
        u.id = uid ∧ u.isOnline = false ∧ u.lastSeen = srv.now) ∧
      (handleDisconnect socket srv).2.1.published
        = srv.published ++ [.userOffline uid] ∧
      (handleDisconnect socket srv).2.2 = [] ∧
      (handleDisconnect socket srv).1 = socket := by
  have hbeq : (uid == "") = false := by simpa using hne
  have hupd : updateUserStatus srv uid false = some
      { srv with users := srv.users.map (fun u =>
          if u.id == uid then { u with isOnline := false, lastSeen := srv.now }
          else u) } := by
    simp [updateUserStatus, hex]
  have hstep : handleDisconnect socket srv =
      (socket,
        publishMessage
          (setUserOffline
            { srv with users := srv.users.map (fun u =>
                if u.id == uid then
                  { u with isOnline := false, lastSeen := srv.now }
                else u) } uid)
          (.userOffline uid), []) := by
    simp [handleDisconnect, hbind, hbeq, hupd]
  rw [hstep]
  refine ⟨?_, ?_, ?_, rfl, rfl⟩
  · simp [publishMessage, setUserOffline, List.mem_filter]
  · obtain ⟨u0, hu0mem, hu0id⟩ := List.any_eq_true.mp hex
    refine ⟨{ u0 with isOnline := false, lastSeen := srv.now }, ?_, ?_, rfl, rfl⟩
    · show _ ∈ (publishMessage _ _).users
      simp only [publishMessage, setUserOffline]
      exact List.mem_map.mpr ⟨u0, hu0mem, by simp [hu0id]⟩
    · exact beq_iff_eq.mp hu0id
  · simp [publishMessage, setUserOffline]

/-- C6: disconnect of a connection authenticated as `uid` (whose user row
exists) removes `uid` from the shared online set, persists
`isOnline = false` with `lastSeen = now`, publishes exactly one
`user_offline` envelope, and emits nothing; disconnect of a
never-authenticated connection changes nothing at all. -/
theorem disconnect_marks_offline (socket : SocketState) (srv : ServerState)
    (uid : String) (hbind : socket.userId = some uid) (hne : uid ≠ "")
    (hex : srv.users.any (fun u => u.id == uid) = true) :
    uid ∉ (handleDisconnect socket srv).2.1.onlineSet ∧
      (∃ u ∈ (handleDisconnect socket srv).2.1.users,
        u.id = uid ∧ u.isOnline = false ∧ u.lastSeen = srv.now) ∧
      (handleDisconnect socket srv).2.1.published
        = srv.published ++ [.userOffline uid] ∧
      (handleDisconnect socket srv).2.2 = [] ∧
      (∀ (s2 : SocketState), s2.userId = none →
        handleDisconnect s2 srv = (s2, srv, [])) := by
  have h := handleDisconnect_spec socket srv uid hbind hne hex
  exact ⟨h.1, h.2.1, h.2.2.1, h.2.2.2.1,
    fun s2 h2 => by simp [handleDisconnect, h2]⟩

theorem disconnect_marks_offline_witness :
    sampleSocket.userId = some "u1" ∧ ("u1" : String) ≠ "" ∧
      sampleServerOnline.users.any (fun u => u.id == "u1") = true ∧
      ("u1" ∉ (handleDisconnect sampleSocket sampleServerOnline).2.1.onlineSet ∧
        (∃ u ∈ (handleDisconnect sampleSocket sampleServerOnline).2.1.users,
          u.id = "u1" ∧ u.isOnline = false ∧
            u.lastSeen = sampleServerOnline.now) ∧
        (handleDisconnect sampleSocket sampleServerOnline).2.1.published
          = sampleServerOnline.published ++ [.userOffline "u1"] ∧
        (handleDisconnect sampleSocket sampleServerOnline).2.2 = [] ∧
        (∀ (s2 : SocketState), s2.userId = none →
          handleDisconnect s2 sampleServerOnline = (s2, sampleServerOnline, []))) :=
  ⟨rfl, by decide, rfl,
    disconnect_marks_offline sampleSocket sampleServerOnline "u1" rfl
      (by decide) rfl⟩

/-- C9: presence is not reference-counted per connection: when two live
connections `a` and `b` are both bound to the same `uid`, disconnecting
`a` unconditionally removes `uid` from the shared online set and
publishes a `user_offline` envelope, even though `b` is still a live
connection bound to `uid` — a user with a live connection can appear
offline. -/
theorem presence_not_refcounted (sys : SystemState) (a b : SocketState)
    (uid : String)
    (hfind : sys.sockets.find? (fun s => s.sid == a.sid) = some a)
    (hb : b ∈ sys.sockets) (hsid : b.sid ≠ a.sid)
    (ha : a.userId = some uid) (hbu : b.userId = some uid) (hne : uid ≠ "")
    (hex : sys.server.users.any (fun u => u.id == uid) = true) :
    uid ∉ (disconnectSocket sys a.sid).server.onlineSet ∧
      (disconnectSocket sys a.sid).server.published
        = sys.server.published ++ [.userOffline uid] ∧
      b ∈ (disconnectSocket sys a.sid).sockets ∧
      b.userId = some uid := by
  have h := handleDisconnect_spec a sys.server uid ha hne hex
  have hstep : disconnectSocket sys a.sid =
      { sockets := sys.sockets.filter (fun t => t.sid != a.sid),
        server := (handleDisconnect a sys.server).2.1 } := by
    simp [disconnectSocket, hfind]
  rw [hstep]
  exact ⟨h.1, h.2.2.1, List.mem_filter.mpr ⟨hb, by simpa using hsid⟩, hbu⟩

theorem presence_not_refcounted_witness :
    sampleSystem.sockets.find? (fun s => s.sid == socketA.sid) = some socketA ∧
      socketB ∈ sampleSystem.sockets ∧ socketB.sid ≠ socketA.sid ∧
      socketA.userId = some "u1" ∧ socketB.userId = some "u1" ∧
      ("u1" : String) ≠ "" ∧
      sampleSystem.server.users.any (fun u => u.id == "u1") = true ∧
      ("u1" ∉ (disconnectSocket sampleSystem socketA.sid).server.onlineSet ∧
        (disconnectSocket sampleSystem socketA.sid).server.published
          = sampleSystem.server.published ++ [.userOffline "u1"] ∧
        socketB ∈ (disconnectSocket sampleSystem socketA.sid).sockets ∧
        socketB.userId = some "u1") :=
  ⟨rfl, by simp [sampleSystem], by decide, rfl, rfl, by decide, rfl,
    presence_not_refcounted sampleSystem socketA socketB "u1" rfl
      (by simp [sampleSystem]) (by decide) rfl rfl (by decide) rfl⟩

theorem findFirst_ext {α : Type} (p q : α → Bool) (l : List α)
    (h : ∀ a, p a = q a) : l.find? p = l.find? q := by
  induction l with
  | nil => rfl
  | cons a l ih =>
    by_cases hp : p a = true
    · rw [List.find?_cons_of_pos _ hp, List.find?_cons_of_pos _ (h a ▸ hp)]
    · rw [List.find?_cons_of_neg _ hp,
        List.find?_cons_of_neg _ (fun hq => hp ((h a).symm ▸ hq)), ih]

theorem matchesDirect_comm (c : Conversation) (u1 u2 : String) :
    matchesDirect c u2 u1 = matchesDirect c u1 u2 := by
  simp [matchesDirect, Bool.and_comm, Bool.and_left_comm, Bool.and_assoc]

theorem getOrCreate_eq_found (srv : ServerState) (u1 u2 : String)
    (c : Conversation)
    (h : srv.conversations.find? (fun c => matchesDirect c u1 u2) = some c) :
    getOrCreateDirectConversation srv u1 u2 = (c.id, srv) := by
  unfold getOrCreateDirectConversation
  rw [h]

theorem getOrCreate_eq_created (srv : ServerState) (u1 u2 : String)
    (h : srv.conversations.find? (fun c => matchesDirect c u1 u2) = none) :
    getOrCreateDirectConversation srv u1 u2 =
      ((newDirectConversation srv u1 u2).id,
        { srv with
          conversations := srv.conversations ++ [newDirectConversation srv u1 u2],
          nextConvId := srv.nextConvId + 1 }) := by
  unfold getOrCreateDirectConversation newDirectConversation
  rw [h]

theorem getOrCreate_again (srv : ServerState) (u1 u2 v1 v2 : String)
    (hperm : (v1 = u1 ∧ v2 = u2) ∨ (v1 = u2 ∧ v2 = u1)) :
    getOrCreateDirectConversation
        (getOrCreateDirectConversation srv u1 u2).2 v1 v2
      = getOrCreateDirectConversation srv u1 u2 := by
  have hpred : ∀ c, matchesDirect c v1 v2 = matchesDirect c u1 u2 := by
    intro c
    rcases hperm with ⟨h1, h2⟩ | ⟨h1, h2⟩ <;> rw [h1, h2]
    exact matchesDirect_comm c u1 u2
  rcases hfind : srv.conversations.find? (fun c => matchesDirect c u1 u2)
    with _ | c
  · have hres := getOrCreate_eq_created srv u1 u2 hfind
    have hnew : (fun c => matchesDirect c v1 v2) (newDirectConversation srv u1 u2)
        = true := by
      rcases hperm with ⟨h1, h2⟩ | ⟨h1, h2⟩ <;> rw [h1, h2] <;>
        simp [matchesDirect, newDirectConversation]
    have hfind2 : (srv.conversations ++ [newDirectConversation srv u1 u2]).find?
          (fun c => matchesDirect c v1 v2)
        = some (newDirectConversation srv u1 u2) := by
      rw [List.find?_append, findFirst_ext _ _ _ hpred, hfind]
      exact @List.find?_cons_of_pos Conversation (fun c => matchesDirect c v1 v2)
        (newDirectConversation srv u1 u2) [] hnew
    rw [hres]
    show getOrCreateDirectConversation
        { srv with
          conversations := srv.conversations ++ [newDirectConversation srv u1 u2],
          nextConvId := srv.nextConvId + 1 } v1 v2 = _
    rw [getOrCreate_eq_found _ v1 v2 (newDirectConversation srv u1 u2) hfind2]
  · have hres := getOrCreate_eq_found srv u1 u2 c hfind
    have hfind2 : srv.conversations.find? (fun d => matchesDirect d v1 v2)
        = some c := by
      rw [findFirst_ext _ _ _ hpred]; exact hfind
    rw [hres]
    show getOrCreateDirectConversation srv v1 v2 = _
    rw [getOrCreate_eq_found srv v1 v2 c hfind2]

theorem getOrCreate_preserves_unique (srv : ServerState) (u1 u2 : String)
    (h : DirectUnique srv) :
    DirectUnique (getOrCreateDirectConversation srv u1 u2).2 := by
  rcases hfind : srv.conversations.find? (fun c => matchesDirect c u1 u2)
    with _ | c
  · have hall := List.find?_eq_none.mp hfind
    have hconvs : (getOrCreateDirectConversation srv u1 u2).2.conversations
        = srv.conversations ++ [newDirectConversation srv u1 u2] := by
      rw [getOrCreate_eq_created srv u1 u2 hfind]
    unfold DirectUnique
    rw [hconvs, List.pairwise_append]
    refine ⟨h, List.pairwise_singleton .., ?_⟩
    intro c hc d hd
    simp only [List.mem_singleton] at hd
    subst hd
    intro hcG _ hset
    have hu1 : u1 ∈ c.participants :=
      (hset u1).mpr (by simp [newDirectConversation])
    have hu2 : u2 ∈ c.participants :=
      (hset u2).mpr (by simp [newDirectConversation])
    have hmatch : matchesDirect c u1 u2 = true := by
      simp only [matchesDirect, hcG, Bool.not_false, Bool.true_and,
        Bool.and_eq_true, List.any_eq_true, beq_iff_eq]
      exact ⟨⟨u1, hu1, rfl⟩, ⟨u2, hu2, rfl⟩⟩
    exact hall c hc hmatch
  · have : (getOrCreateDirectConversation srv u1 u2).2 = srv := by
      simp [getOrCreateDirectConversation, hfind]
    rw [this]; exact h

/-- C2: resolving the direct conversation of a pair a second time — in
either argument order — returns the same conversation id and leaves the
state exactly as after the first call; a third call changes nothing
either; and the operation preserves the invariant that at most one
non-group conversation exists per unordered pair of participant
identities. -/
theorem direct_conversation_unique (srv : ServerState) (u1 u2 : String) :
    getOrCreateDirectConversation
        (getOrCreateDirectConversation srv u1 u2).2 u2 u1
      = getOrCreateDirectConversation srv u1 u2 ∧
    getOrCreateDirectConversation
        (getOrCreateDirectConversation srv u1 u2).2 u1 u2
      = getOrCreateDirectConversation srv u1 u2 ∧
    getOrCreateDirectConversation
        (getOrCreateDirectConversation
          (getOrCreateDirectConversation srv u1 u2).2 u2 u1).2 u1 u2
      = getOrCreateDirectConversation srv u1 u2 ∧
    (DirectUnique srv → DirectUnique (getOrCreateDirectConversation srv u1 u2).2) := by
  have h21 := getOrCreate_again srv u1 u2 u2 u1 (Or.inr ⟨rfl, rfl⟩)
  have h12 := getOrCreate_again srv u1 u2 u1 u2 (Or.inl ⟨rfl, rfl⟩)
  refine ⟨h21, h12, ?_, getOrCreate_preserves_unique srv u1 u2⟩
  rw [h21]
  exact h12

theorem direct_conversation_unique_witness :
    DirectUnique sampleServer ∧
      getOrCreateDirectConversation
          (getOrCreateDirectConversation sampleServer "u1" "u3").2 "u3" "u1"
        = getOrCreateDirectConversation sampleServer "u1" "u3" ∧
      DirectUnique (getOrCreateDirectConversation sampleServer "u1" "u3").2 := by
  have hu : DirectUnique sampleServer := by
    simp [DirectUnique, sampleServer]
  exact ⟨hu, (direct_conversation_unique sampleServer "u1" "u3").1,
    (direct_conversation_unique sampleServer "u1" "u3").2.2.2 hu⟩

theorem createMessage_eq_some (srv : ServerState)
    (content uid conversationId : String) (sender : UserRec)
    (hu : findUser srv uid = some sender)
    (hc : srv.conversations.any (fun c => c.id == conversationId) = true) :
    createMessage srv content uid conversationId = some
      (⟨srv.nextMessageId, content, uid, conversationId, srv.now,
          ⟨sender.id, sender.username, sender.avatar⟩⟩,
        { srv with
          messages := srv.messages ++
            [⟨srv.nextMessageId, content, uid, conversationId, srv.now⟩],
          nextMessageId := srv.nextMessageId + 1,
          now := srv.now + 1 }) := by
  unfold createMessage
  rw [hu]
  simp [hc]

/-- C3 counterexample: on an authenticated connection (bound to an
existing user) and an existing conversation, a `send_message` whose
content is EMPTY is not dropped: a message row with empty content is
persisted and a `new_message` envelope is published to the backbone. -/
theorem empty_content_persisted_counterexample :
    (handleSendMessage sampleSocket sampleServer "c1" "").2.1.messages
        = [⟨0, "", "u1", "c1", 0⟩] ∧
      (handleSendMessage sampleSocket sampleServer "c1" "").2.1.published
        = [.newMessage "c1" ⟨0, "", "u1", "c1", 0, ⟨"u1", "Alice", none⟩⟩] :=
  ⟨rfl, rfl⟩

/-- C3 amended: the `send_message` handler checks only that the
connection is authenticated, never the content: with a bound identity
(and existing sender and conversation rows) a `send_message` with empty
content is processed like any other — the empty message is persisted via
`createMessage` and a `new_message` envelope is published to the
backbone.  The content-nonempty precondition is not enforced. -/
theorem send_message_empty_not_dropped (socket : SocketState)
    (srv : ServerState) (conversationId uid : String) (sender : UserRec)
    (hbind : socket.userId = some uid) (hne : uid ≠ "")
    (hu : findUser srv uid = some sender)
    (hc : srv.conversations.any (fun c => c.id == conversationId) = true) :
    (handleSendMessage socket srv conversationId "").2.1.messages
        = srv.messages ++
          [⟨srv.nextMessageId, "", uid, conversationId, srv.now⟩] ∧
      (handleSendMessage socket srv conversationId "").2.1.published
        = srv.published ++
          [.newMessage conversationId
            ⟨srv.nextMessageId, "", uid, conversationId, srv.now,
              ⟨sender.id, sender.username, sender.avatar⟩⟩] := by
  have hbeq : (uid == "") = false := by simpa using hne
  have hcm := createMessage_eq_some srv "" uid conversationId sender hu hc
  have hstep : handleSendMessage socket srv conversationId "" =
      (socket,
        publishMessage
          { srv with
            messages := srv.messages ++
              [⟨srv.nextMessageId, "", uid, conversationId, srv.now⟩],
            nextMessageId := srv.nextMessageId + 1,
            now := srv.now + 1 }
          (.newMessage conversationId
            ⟨srv.nextMessageId, "", uid, conversationId, srv.now,
              ⟨sender.id, sender.username, sender.avatar⟩⟩), []) := by
    simp [handleSendMessage, hbind, hbeq, hcm]
  rw [hstep]
  constructor <;> simp [publishMessage]

theorem send_message_empty_not_dropped_witness :
    sampleSocket.userId = some "u1" ∧ ("u1" : String) ≠ "" ∧
      findUser sampleServer "u1" = some sampleUser1 ∧
      sampleServer.conversations.any (fun c => c.id == "c1") = true ∧
      ((handleSendMessage sampleSocket sampleServer "c1" "").2.1.messages
          = sampleServer.messages ++
            [⟨sampleServer.nextMessageId, "", "u1", "c1", sampleServer.now⟩] ∧
        (handleSendMessage sampleSocket sampleServer "c1" "").2.1.published
          = sampleServer.published ++
            [.newMessage "c1"
              ⟨sampleServer.nextMessageId, "", "u1", "c1", sampleServer.now,
                ⟨sampleUser1.id, sampleUser1.username, sampleUser1.avatar⟩⟩]) :=
  ⟨rfl, by decide, rfl, rfl,
    send_message_empty_not_dropped sampleSocket sampleServer "c1" "u1"
      sampleUser1 rfl (by decide) rfl rfl⟩

theorem joinSender_content (srv : ServerState) (m : MessageRec) :
    (joinSender srv m).content = m.content := by
  unfold joinSender
  cases findUser srv m.senderId <;> rfl

theorem sendAll_contents (socket : SocketState) (uid conversationId : String)
    (hbind : socket.userId = some uid) (hne : uid ≠ "") :
    ∀ (contents : List String) (srv : ServerState),
      (findUser srv uid).isSome = true →
      srv.conversations.any (fun c => c.id == conversationId) = true →
      ((sendAll socket srv conversationId contents).messages.filter
            (fun m => m.conversationId == conversationId)).map
          (fun m => m.content)
        = (srv.messages.filter
              (fun m => m.conversationId == conversationId)).map
            (fun m => m.content) ++ contents := by
  intro contents
  induction contents with
  | nil => intro srv _ _; simp [sendAll]
  | cons c cs ih =>
    intro srv hu hc
    obtain ⟨sender, hsender⟩ := Option.isSome_iff_exists.mp hu
    have hbeq : (uid == "") = false := by simpa using hne
    have hcm := createMessage_eq_some srv c uid conversationId sender hsender hc
    have hstep : handleSendMessage socket srv conversationId c =
        (socket,
          publishMessage
            { srv with
              messages := srv.messages ++
                [⟨srv.nextMessageId, c, uid, conversationId, srv.now⟩],
              nextMessageId := srv.nextMessageId + 1,
              now := srv.now + 1 }
            (.newMessage conversationId
              ⟨srv.nextMessageId, c, uid, conversationId, srv.now,
                ⟨sender.id, sender.username, sender.avatar⟩⟩), []) := by
      simp [handleSendMessage, hbind, hbeq, hcm]
    have hsend : sendAll socket srv conversationId (c :: cs)
        = sendAll socket
            (publishMessage
              { srv with
                messages := srv.messages ++
                  [⟨srv.nextMessageId, c, uid, conversationId, srv.now⟩],
                nextMessageId := srv.nextMessageId + 1,
                now := srv.now + 1 }
              (.newMessage conversationId
                ⟨srv.nextMessageId, c, uid, conversationId, srv.now,
                  ⟨sender.id, sender.username, sender.avatar⟩⟩))
            conversationId cs := by
      show (sendAll socket (handleSendMessage socket srv conversationId c).2.1
          conversationId cs) = _
      rw [hstep]
    rw [hsend]
    have hrec := ih (publishMessage
        { srv with
          messages := srv.messages ++
            [⟨srv.nextMessageId, c, uid, conversationId, srv.now⟩],
          nextMessageId := srv.nextMessageId + 1,
          now := srv.now + 1 }
        (.newMessage conversationId
          ⟨srv.nextMessageId, c, uid, conversationId, srv.now,
            ⟨sender.id, sender.username, sender.avatar⟩⟩)) hu hc
    rw [hrec]
    show ((srv.messages ++
        [(⟨srv.nextMessageId, c, uid, conversationId, srv.now⟩ : MessageRec)]).filter
          (fun m => m.conversationId == conversationId)).map
        (fun m => m.content) ++ cs = _
    rw [List.filter_append]
    simp

/-- C5 amended: after N sequential `send_message` calls with contents
[c1..cN] into a conversation with no prior messages, the history
returned by `getConversationMessages` with page size `limit` is the most
recent `min(N, limit)` messages oldest-first; whenever `N ≤ limit` (in
particular N at most the default page size 50) it is exactly [c1..cN] in
creation order — reversing the newest-first retrieval restores creation
order, but the page bound truncates histories longer than `limit`. -/
theorem history_roundtrip (socket : SocketState) (srv : ServerState)
    (uid conversationId : String) (contents : List String) (limit : Nat)
    (hbind : socket.userId = some uid) (hne : uid ≠ "")
    (hu : (findUser srv uid).isSome = true)
    (hc : srv.conversations.any (fun c => c.id == conversationId) = true)
    (hempty : srv.messages.filter (fun m => m.conversationId == conversationId)
      = [])
    (hlen : contents.length ≤ limit) :
    (getConversationMessages (sendAll socket srv conversationId contents)
          conversationId limit none).map (fun m => m.content)
      = contents := by
  have hmap := sendAll_contents socket uid conversationId hbind hne contents
    srv hu hc
  rw [hempty] at hmap
  simp only [List.map_nil, List.nil_append] at hmap
  have hlenL : ((sendAll socket srv conversationId contents).messages.filter
      (fun m => m.conversationId == conversationId)).length ≤ limit := by
    have := congrArg List.length hmap
    rw [List.length_map] at this
    omega
  show (((((sendAll socket srv conversationId contents).messages.filter
      (fun m => m.conversationId == conversationId)).reverse.take
        limit).reverse).map
      (joinSender (sendAll socket srv conversationId contents))).map
    (fun m => m.content) = contents
  rw [List.take_of_length_le (by rw [List.length_reverse]; exact hlenL),
    List.reverse_reverse, List.map_map]
  refine Eq.trans (List.map_congr_left ?_) hmap
  intro a _
  exact joinSender_content (sendAll socket srv conversationId contents) a

theorem history_roundtrip_witness :
    sampleSocket.userId = some "u1" ∧ ("u1" : String) ≠ "" ∧
      (findUser sampleServer "u1").isSome = true ∧
      sampleServer.conversations.any (fun c => c.id == "c1") = true ∧
      sampleServer.messages.filter (fun m => m.conversationId == "c1") = [] ∧
      (["a", "b", "c"] : List String).length ≤ 50 ∧
      (getConversationMessages
            (sendAll sampleSocket sampleServer "c1" ["a", "b", "c"])
            "c1" 50 none).map (fun m => m.content)
        = ["a", "b", "c"] :=
  ⟨rfl, by decide, rfl, rfl, rfl, by decide,
    history_roundtrip sampleSocket sampleServer "u1" "c1" ["a", "b", "c"] 50
      rfl (by decide) rfl rfl rfl (by decide)⟩

set_option maxRecDepth 100000 in
/-- C5 counterexample: the claim fails for N larger than the page bound:
after 51 sequential `send_message` calls, the history returned with the
default page size 50 is the LAST 50 contents (oldest-first), not all 51
— the first message is missing. -/
theorem history_truncation_counterexample :
    ((getConversationMessages
          (sendAll sampleSocket sampleServer "c1" contents51) "c1" 50
          none).map (fun m => m.content)
        = contents51.drop 1) ∧
      contents51.drop 1 ≠ contents51 := by
  constructor
  · rfl
  · decide

end ChatApp
